import Mathlib

/-
Verification of the Ollama transport client and stream decoder
(src/unnamed/part_001: getModels, sendMessage, checkStatus).

JavaScript strings are modelled as lists of characters; the network is an
oracle recording the outcome each endpoint would deliver; the streamed
response body is a list of events (data deliveries and stream errors); a
promise settlement is an explicit option value where the first settlement
wins, matching promise semantics.
-/

/-- Character-sequence model of a JavaScript string. -/
abbrev JsText := List Char

/-- A model descriptor returned by the tags endpoint (source lines 23-27). -/
structure OllamaModel where
  name : JsText
  modified_at : JsText
  size : Nat
  deriving DecidableEq

/-- One decoded stream record (source lines 16-21). The source interface also
declares model and created_at fields, but no code path modelled here reads
them, so only the two consumed fields are carried. -/
structure OllamaResponse where
  response : JsText
  done : Bool
  deriving DecidableEq

/-- A transport failure as observed in a catch block: whether
axios.isAxiosError holds of it, its code field and its message field. -/
structure NetError where
  isAxios : Bool
  code : Option JsText
  message : JsText
  deriving DecidableEq

/-- How a promise settles: resolved with a string, or rejected with an error. -/
inductive SendResult where
  | resolved (value : JsText)
  | rejected (e : NetError)
  deriving DecidableEq

/-- An event on the streamed response body: a data delivery or a stream
error event (source lines 78 and 100). -/
inductive StreamEvent where
  | data (chunk : JsText)
  | errorEv (e : NetError)
  deriving DecidableEq

/-- Oracle for the HTTP world: the outcome each request would have. The tags
field carries the value of response.data.models, which may be absent. -/
structure Network where
  tags : Except NetError (Option (List OllamaModel))
  version : Except NetError Unit
  generateStream : Except NetError (List StreamEvent)
  generateBuffered : Except NetError OllamaResponse

/-- The record checkStatus returns (source lines 119-137). -/
structure ConnectionStatus where
  running : Bool
  modelAvailable : Bool
  deriving DecidableEq

/-- State of the streaming handler installed by sendMessage (source lines
74-103): the accumulated fullResponse, the tokens passed to onToken in
order, and how the surrounding promise has settled, when it has. -/
structure StreamState where
  fullResponse : JsText
  emitted : List JsText
  settled : Option SendResult
  deriving DecidableEq

/-- Settling an already settled promise is a no-op: the first settlement wins. -/
def firstSettle (a b : Option SendResult) : Option SendResult :=
  match a with
  | some v => some v
  | none => b

/-- Splitting a string at newline characters, as text.split does at source
line 82. -/
def splitNl : JsText → List JsText
  | [] => [[]]
  | c :: rest =>
    match splitNl rest with
    | [] => [[]]
    | l :: ls => if c = '\n' then [] :: l :: ls else (c :: l) :: ls

/-- The lines of one delivery: split at newlines, then drop every line whose
trim is empty (source line 82). Char.isWhitespace stands for the whitespace
set used by the trim method. -/
def chunkLines (text : JsText) : List JsText :=
  (splitNl text).filter (fun l => !l.all Char.isWhitespace)

/-- The for-loop of source lines 84-93 under the try of line 80: each line is
parsed, its response field is appended to fullResponse and passed to onToken,
and when its done flag is set the promise is resolved with the accumulated
text. A parse failure throws to the catch of line 94, which abandons the
remaining lines of this same delivery. -/
def processLines (parse : JsText → Option OllamaResponse) :
    List JsText → StreamState → StreamState
  | [], s => s
  | line :: rest, s =>
    match parse line with
    | none => s
    | some p =>
      processLines parse rest
        { fullResponse := s.fullResponse ++ p.response,
          emitted := s.emitted ++ [p.response],
          settled :=
            if p.done then
              firstSettle s.settled
                (some (SendResult.resolved (s.fullResponse ++ p.response)))
            else s.settled }

/-- One data event (source lines 78-98): decode the chunk to text, split and
filter its lines, and run the per-line loop. -/
def processDelivery (parse : JsText → Option OllamaResponse)
    (s : StreamState) (text : JsText) : StreamState :=
  processLines parse (chunkLines text) s

/-- The state before the first data event. -/
def initStream : StreamState :=
  { fullResponse := [], emitted := [], settled := none }

/-- Running the data handler over a sequence of deliveries. -/
def processDeliveries (parse : JsText → Option OllamaResponse)
    (texts : List JsText) (s : StreamState) : StreamState :=
  texts.foldl (processDelivery parse) s

/-- The decoder run from the initial state over a sequence of deliveries. -/
def runDecoder (parse : JsText → Option OllamaResponse)
    (texts : List JsText) : StreamState :=
  processDeliveries parse texts initStream

/-- One stream event: a data event runs the decoder handler; an error event
rejects the promise (source lines 100-102), which is a no-op when the promise
has already settled. Data handlers keep firing after settlement. -/
def processEvent (parse : JsText → Option OllamaResponse)
    (s : StreamState) : StreamEvent → StreamState
  | .data chunk => processDelivery parse s chunk
  | .errorEv e =>
    { s with settled := firstSettle s.settled (some (SendResult.rejected e)) }

/-- Running the handlers over the events of a streamed response body. -/
def runStream (parse : JsText → Option OllamaResponse)
    (events : List StreamEvent) : StreamState :=
  events.foldl (processEvent parse) initStream

/-- Strip an expected leading sequence, or fail. -/
def stripLeading : JsText → JsText → Option JsText
  | [], t => some t
  | _ :: _, [] => none
  | p :: ps, c :: cs => if p = c then stripLeading ps cs else none

/-- Read characters up to a closing double quote; returns the content and the
remainder after the quote. -/
def takeStringLit : JsText → Option (JsText × JsText)
  | [] => none
  | c :: rest =>
    if c = '\"' then some ([], rest)
    else
      match takeStringLit rest with
      | none => none
      | some (s, r) => some (c :: s, r)

/-- Modelled from the spec: JSON.parse is a JavaScript platform builtin, not
code of this repository. It is modelled for the documented wire format (spec
section 6: newline-delimited JSON objects carrying a response string and a
done flag), restricted to records written exactly as
\x7b"response":"...","done":false\x7d or \x7b"response":"...","done":true\x7d
with no escape sequences inside the string. Any other input is a parse
failure, standing for the SyntaxError that JSON.parse would throw. -/
def parseChunkLine (t : JsText) : Option OllamaResponse :=
  match stripLeading ("\x7b\"response\":\"".toList) t with
  | none => none
  | some t1 =>
    match takeStringLit t1 with
    | none => none
    | some (resp, t2) =>
      match stripLeading (",\"done\":".toList) t2 with
      | none => none
      | some t3 =>
        if t3 = "false\x7d".toList then some { response := resp, done := false }
        else if t3 = "true\x7d".toList then some { response := resp, done := true }
        else none

/-- getModels (source lines 34-42): request the tags endpoint and return
response.data.models, or the empty list when that field is absent; any thrown
failure is caught, logged and turned into the empty list, so the function is
total and never propagates an error to its caller. -/
def getModels (net : Network) : List OllamaModel :=
  match net.tags with
  | .ok (some ms) => ms
  | .ok none => []
  | .error _ => []

/-- The join of model names with a comma separator, as used at source line 56. -/
def joinComma : List JsText → JsText
  | [] => []
  | [x] => x
  | x :: y :: rest => x ++ ", ".toList ++ joinComma (y :: rest)

/-- The model-not-found message of source line 56; the joined model names
fall back to None exactly when the join is the empty string. -/
def modelNotFoundMsg (model : JsText) (models : List OllamaModel) : JsText :=
  let joined := joinComma (models.map (fun m => m.name))
  "Error: Model \"".toList ++ model ++ "\" not found. Available models: ".toList ++
    (if joined = [] then "None".toList else joined) ++
    ". Use \"ollama pull ".toList ++ model ++ "\" to download it.".toList

/-- The connection-refused message of source line 112. -/
def connectionRefusedMsg : JsText :=
  ("Error: Could not connect to Ollama. Make sure it is running with " ++
    "\"ollama serve\" at http://localhost:11434.").toList

/-- The generic failure message of source line 114. -/
def genericErrorMsg (e : NetError) (model : JsText) : JsText :=
  "Error communicating with Ollama: ".toList ++ e.message ++
    ". Make sure you have pulled the model with \"ollama pull ".toList ++
    model ++ "\".".toList

/-- The catch block of source lines 109-115: the connection-refused text when
the error is an axios error with code ECONNREFUSED, the generic text
otherwise. -/
def catchMsg (e : NetError) (model : JsText) : JsText :=
  if e.isAxios && e.code == some "ECONNREFUSED".toList then connectionRefusedMsg
  else genericErrorMsg e model

/-- Observable outcome of one sendMessage call: how its returned promise
settles (none when the stream ends without resolving or rejecting, so the
promise stays pending), and whether a POST to the generate endpoint was
issued. -/
structure SendOutcome where
  result : Option SendResult
  calledGenerate : Bool
  deriving DecidableEq

/-- sendMessage (source lines 45-116). The streaming flag stands for an
onToken callback being supplied. The try of line 50 catches exceptions thrown
while awaiting the generate POST in either mode; the promise returned at line
77 is adopted after the try block has been exited, so a later rejection by
the stream error handler reaches the caller unconverted. getModels never
throws, so the pre-check cannot reach the catch. -/
def sendMessage (net : Network) (_message model : JsText)
    (streaming : Bool) : SendOutcome :=
  let models := getModels net
  let modelExists := models.any (fun m => m.name == model)
  if !modelExists then
    { result := some (SendResult.resolved (modelNotFoundMsg model models)),
      calledGenerate := false }
  else if streaming then
    match net.generateStream with
    | .error e =>
      { result := some (SendResult.resolved (catchMsg e model)),
        calledGenerate := true }
    | .ok events =>
      { result := (runStream parseChunkLine events).settled,
        calledGenerate := true }
  else
    match net.generateBuffered with
    | .error e =>
      { result := some (SendResult.resolved (catchMsg e model)),
        calledGenerate := true }
    | .ok d =>
      { result := some (SendResult.resolved d.response), calledGenerate := true }

/-- checkStatus (source lines 119-137): request the version endpoint as a
liveness probe; on success also report whether the model is among the listed
models; on probe failure return both flags false. getModels never throws, so
the catch is reachable only from the version request. -/
def checkStatus (net : Network) (model : JsText) : ConnectionStatus :=
  match net.version with
  | .ok _ =>
    { running := true,
      modelAvailable := (getModels net).any (fun m => m.name == model) }
  | .error _ => { running := false, modelAvailable := false }

/-- Concatenation of a list of strings. -/
def concatAll : List JsText → JsText
  | [] => []
  | x :: rest => x ++ concatAll rest

/-- The accumulated total at the first record whose done flag is set, given
the text accumulated so far: the value the promise resolves with; none when
no record has the flag set. -/
def firstDoneTotal (acc : JsText) : List OllamaResponse → Option JsText
  | [] => none
  | r :: rest =>
    if r.done then some (acc ++ r.response)
    else firstDoneTotal (acc ++ r.response) rest

/-- The first streamed line of the concrete scenario in the spec: a record
carrying the token Hel with the done flag clear. -/
def lineHel : JsText := "\x7b\"response\":\"Hel\",\"done\":false\x7d".toList

/-- The second streamed line of the concrete scenario: the token lo with the
done flag set. -/
def lineLo : JsText := "\x7b\"response\":\"lo\",\"done\":true\x7d".toList

/-- The full two-record streamed body, newline-delimited. -/
def bodyHelLo : JsText := lineHel ++ '\n' :: lineLo

/-- A well-formed record line carrying the token ok with the done flag set. -/
def lineOk : JsText := "\x7b\"response\":\"ok\",\"done\":true\x7d".toList

/-- One delivery holding a malformed line followed by a well-formed line. -/
def badThenOk : JsText := "not json".toList ++ '\n' :: lineOk

/-- A connection-refused transport error, as axios reports one. -/
def errRefused : NetError :=
  { isAxios := true, code := some "ECONNREFUSED".toList,
    message := "connect ECONNREFUSED 127.0.0.1:11434".toList }

/-- A generic transport error that is not a refused connection. -/
def errGeneric : NetError :=
  { isAxios := false, code := none, message := "socket hang up".toList }

/-- The llama2 model descriptor used in the concrete scenarios. -/
def llama2Model : OllamaModel :=
  { name := "llama2".toList, modified_at := [], size := 0 }

/-- The mistral model descriptor used in the concrete scenarios. -/
def mistralModel : OllamaModel :=
  { name := "mistral".toList, modified_at := [], size := 0 }

/-- A world in which every endpoint is unreachable. -/
def netDown : Network :=
  { tags := .error errRefused, version := .error errRefused,
    generateStream := .error errRefused, generateBuffered := .error errRefused }

/-- A world in which the server is up and lists llama2 and mistral. -/
def netUp : Network :=
  { tags := .ok (some [llama2Model, mistralModel]), version := .ok (),
    generateStream := .ok [], generateBuffered := .error errGeneric }

/-- A world in which the version probe succeeds but the tags request fails. -/
def netNoTags : Network :=
  { tags := .error errGeneric, version := .ok (),
    generateStream := .ok [], generateBuffered := .error errGeneric }

/-- A world in which the streaming generate request opens, then the stream
emits an error event. -/
def netStreamError : Network :=
  { tags := .ok (some [llama2Model]), version := .ok (),
    generateStream := .ok [StreamEvent.errorEv errGeneric],
    generateBuffered := .error errGeneric }

/-- A world in which both generate POSTs themselves fail with a refused
connection. -/
def netPostFails : Network :=
  { tags := .ok (some [llama2Model]), version := .ok (),
    generateStream := .error errRefused, generateBuffered := .error errRefused }

/-- A decoder state whose promise has already resolved with Hel. -/
def afterDoneState : StreamState :=
  { fullResponse := "Hel".toList, emitted := ["Hel".toList],
    settled := some (SendResult.resolved "Hel".toList) }

theorem firstSettle_none (a : Option SendResult) : firstSettle a none = a := by
  cases a <;> rfl

theorem firstSettle_absorb (a : Option SendResult) (x : SendResult)
    (b : Option SendResult) :
    firstSettle (firstSettle a (some x)) b = firstSettle a (some x) := by
  cases a <;> rfl

/-- Running the per-line loop over lines that all parse appends every token to
the emission list and to the accumulator, and settles the promise at the first
record whose done flag is set, keeping an earlier settlement. -/
theorem processLines_parsed (parse : JsText → Option OllamaResponse)
    {ls : List JsText} {rs : List OllamaResponse}
    (h : List.Forall₂ (fun l r => parse l = some r) ls rs) (s : StreamState) :
    processLines parse ls s =
      { fullResponse := s.fullResponse ++ concatAll (rs.map (fun r => r.response)),
        emitted := s.emitted ++ rs.map (fun r => r.response),
        settled := firstSettle s.settled
          ((firstDoneTotal s.fullResponse rs).map SendResult.resolved) } := by
  induction h generalizing s with
  | nil => simp [processLines, concatAll, firstDoneTotal, firstSettle_none]
  | @cons l r ls' rs' hlr hrest ih =>
    rw [show processLines parse (l :: ls') s =
        processLines parse ls'
          { fullResponse := s.fullResponse ++ r.response,
            emitted := s.emitted ++ [r.response],
            settled :=
              if r.done then
                firstSettle s.settled
                  (some (SendResult.resolved (s.fullResponse ++ r.response)))
              else s.settled } from by simp [processLines, hlr]]
    rw [ih]
    cases hd : r.done <;>
      simp [hd, concatAll, firstDoneTotal, firstSettle_absorb, List.append_assoc]

/-- When every delivery is a single well-formed line, folding the data handler
over the deliveries equals running the per-line loop over the lines. -/
theorem processDeliveries_oneLine (parse : JsText → Option OllamaResponse)
    {ls : List JsText} {rs : List OllamaResponse}
    (h : List.Forall₂ (fun l r => chunkLines l = [l] ∧ parse l = some r) ls rs)
    (s : StreamState) :
    processDeliveries parse ls s = processLines parse ls s := by
  induction h generalizing s with
  | nil => rfl
  | @cons l r ls' rs' hlr hrest ih =>
    have step : processDelivery parse s l =
        { fullResponse := s.fullResponse ++ r.response,
          emitted := s.emitted ++ [r.response],
          settled :=
            if r.done then
              firstSettle s.settled
                (some (SendResult.resolved (s.fullResponse ++ r.response)))
            else s.settled } := by
      simp [processDelivery, hlr.1, processLines, hlr.2]
    calc processDeliveries parse (l :: ls') s
        = processDeliveries parse ls' (processDelivery parse s l) := rfl
      _ = processLines parse ls' (processDelivery parse s l) := ih _
      _ = processLines parse (l :: ls') s := by
          rw [step]; simp [processLines, hlr.2]

/-- A settled promise stays settled with the same value through any further
lines of a delivery. -/
theorem processLines_settledStable (parse : JsText → Option OllamaResponse)
    (ls : List JsText) (s : StreamState) (v : SendResult)
    (h : s.settled = some v) :
    (processLines parse ls s).settled = some v := by
  induction ls generalizing s with
  | nil => exact h
  | cons l rest ih =>
    show (processLines parse (l :: rest) s).settled = some v
    rcases hp : parse l with _ | p
    · simpa [processLines, hp] using h
    · have heq : (match parse l with
        | none => s
        | some p =>
          processLines parse rest
            { fullResponse := s.fullResponse ++ p.response,
              emitted := s.emitted ++ [p.response],
              settled :=
                if p.done then
                  firstSettle s.settled
                    (some (SendResult.resolved (s.fullResponse ++ p.response)))
                else s.settled }) = processLines parse (l :: rest) s := by
        simp [processLines]
      rw [← heq, hp]
      apply ih
      cases hd : p.done <;> simp [hd, h, firstSettle]

/-- A settled promise stays settled with the same value through any further
deliveries. -/
theorem processDeliveries_settledStable (parse : JsText → Option OllamaResponse)
    (ds : List JsText) (s : StreamState) (v : SendResult)
    (h : s.settled = some v) :
    (processDeliveries parse ds s).settled = some v := by
  induction ds generalizing s with
  | nil => exact h
  | cons d rest ih =>
    exact ih _ (processLines_settledStable parse (chunkLines d) s v h)

/-- The per-line loop over well-parsing lines composes with whatever lines
follow them within the same delivery. -/
theorem processLines_okThenMore (parse : JsText → Option OllamaResponse)
    {ls1 : List JsText} {rs1 : List OllamaResponse} (ls2 : List JsText)
    (h : List.Forall₂ (fun l r => parse l = some r) ls1 rs1) (s : StreamState) :
    processLines parse (ls1 ++ ls2) s =
      processLines parse ls2 (processLines parse ls1 s) := by
  induction h generalizing s with
  | nil => rfl
  | @cons l r ls' rs' hlr hrest ih =>
    show processLines parse (l :: (ls' ++ ls2)) s = _
    simp only [processLines, hlr]
    exact ih _

/-- C1: the claim asserts that for every streamed body and every partition of
it into deliveries at arbitrary byte boundaries, the decoder inside
sendMessage emits the same ordered token sequence as for a single delivery.
The code violates this, as the spec itself records: splitting the concrete
two-record body after its seventh character makes the first record
unparseable in both deliveries, so no token at all is emitted, while the
single delivery emits Hel then lo. This theorem evaluates the decoder at that
failing input. -/
theorem c1_split_delivery_changes_tokens :
    bodyHelLo.take 7 ++ bodyHelLo.drop 7 = bodyHelLo ∧
    (runDecoder parseChunkLine [bodyHelLo]).emitted =
      ["Hel".toList, "lo".toList] ∧
    (runDecoder parseChunkLine [bodyHelLo.take 7, bodyHelLo.drop 7]).emitted =
      [] := by
  decide

/-- C2: in streaming mode the decoder invokes onToken once per decoded record
with that record's response field, in record order, accumulates the tokens,
and resolves exactly once with the total accumulated at the first record
whose done flag is set; a settled promise is unchanged by later deliveries;
concretely, the two-line stream Hel then lo emits Hel then lo and resolves
with Hello. -/
theorem c2_streaming_emission_and_resolution :
    (∀ (parse : JsText → Option OllamaResponse) (lines : List JsText)
        (rs : List OllamaResponse),
      List.Forall₂ (fun l r => chunkLines l = [l] ∧ parse l = some r) lines rs →
      (runDecoder parse lines).emitted = rs.map (fun r => r.response) ∧
      (runDecoder parse lines).fullResponse =
        concatAll (rs.map (fun r => r.response)) ∧
      (runDecoder parse lines).settled =
        (firstDoneTotal [] rs).map SendResult.resolved) ∧
    (∀ (parse : JsText → Option OllamaResponse) (s : StreamState)
        (v : SendResult) (ds : List JsText), s.settled = some v →
      (processDeliveries parse ds s).settled = some v) ∧
    ((runDecoder parseChunkLine [lineHel, lineLo]).emitted =
        ["Hel".toList, "lo".toList] ∧
      (runDecoder parseChunkLine [lineHel, lineLo]).settled =
        some (SendResult.resolved "Hello".toList)) := by
  refine ⟨?_, ?_, by decide⟩
  · intro parse lines rs h
    have hb := processDeliveries_oneLine parse h initStream
    have hm := processLines_parsed parse (h.imp (fun _ _ hab => hab.2)) initStream
    unfold runDecoder
    rw [hb, hm]
    simp [initStream, firstSettle]
  · intro parse s v ds h
    exact processDeliveries_settledStable parse ds s v h

/-- C3: when the requested model is not among the models returned by the
listing, sendMessage resolves to the explanatory message, that message
mentions the requested model name, and no generate request is issued. -/
theorem c3_unknown_model_short_circuits (net : Network)
    (message model : JsText) (streaming : Bool)
    (h : (getModels net).any (fun m => m.name == model) = false) :
    (sendMessage net message model streaming).calledGenerate = false ∧
    (sendMessage net message model streaming).result =
      some (SendResult.resolved (modelNotFoundMsg model (getModels net))) ∧
    ∃ a b, modelNotFoundMsg model (getModels net) = a ++ model ++ b := by
  refine ⟨by simp [sendMessage, h], by simp [sendMessage, h],
    ⟨"Error: Model \"".toList,
      "\" not found. Available models: ".toList ++
        (if joinComma ((getModels net).map (fun m => m.name)) = [] then
          "None".toList
        else joinComma ((getModels net).map (fun m => m.name))) ++
        ". Use \"ollama pull ".toList ++ model ++ "\" to download it.".toList,
      ?_⟩⟩
  simp [modelNotFoundMsg, List.append_assoc]

/-- Witness for C3: the model foo is absent from the listed models llama2 and
mistral, sendMessage resolves to the explanatory message naming foo, and the
generate endpoint is not called. -/
theorem c3_unknown_model_short_circuits_witness :
    (sendMessage netUp [] "foo".toList true).calledGenerate = false ∧
    (sendMessage netUp [] "foo".toList true).result =
      some (SendResult.resolved
        (modelNotFoundMsg "foo".toList (getModels netUp))) ∧
    ∃ a b, modelNotFoundMsg "foo".toList (getModels netUp) =
      a ++ "foo".toList ++ b :=
  c3_unknown_model_short_circuits netUp [] "foo".toList true (by decide)

/-- C4 as stated is false at a concrete input: one delivery carrying a
malformed line followed by a well-formed line emits no token at all, because
the catch wraps the whole per-delivery loop, so the parse failure abandons
the well-formed line that follows it in the same delivery. -/
theorem c4_malformed_line_counterexample :
    parseChunkLine lineOk = some { response := "ok".toList, done := true } ∧
    (runDecoder parseChunkLine [badThenOk]).emitted = [] ∧
    (runDecoder parseChunkLine [badThenOk]).settled = none := by
  decide

/-- C4 amended: when JSON parsing of a line fails, the decoder logs and
abandons the failing line and all later lines of that same delivery, keeping
the state reached before the failure; the stream is not aborted, since
subsequent deliveries are processed from that state unchanged. -/
theorem c4_parse_failure_confined_to_delivery
    (parse : JsText → Option OllamaResponse)
    (ls1 : List JsText) (rs1 : List OllamaResponse) (bad : JsText)
    (ls2 : List JsText) (s : StreamState) (ds : List JsText)
    (h1 : List.Forall₂ (fun l r => parse l = some r) ls1 rs1)
    (h2 : parse bad = none) :
    processLines parse (ls1 ++ bad :: ls2) s = processLines parse ls1 s ∧
    processDeliveries parse ds (processLines parse (ls1 ++ bad :: ls2) s) =
      processDeliveries parse ds (processLines parse ls1 s) := by
  have key : processLines parse (ls1 ++ bad :: ls2) s =
      processLines parse ls1 s := by
    rw [processLines_okThenMore parse (bad :: ls2) h1 s]
    simp [processLines, h2]
  exact ⟨key, by rw [key]⟩

/-- Witness for the amended C4: a delivery made of the Hel line, a malformed
line and the lo line behaves exactly as the Hel line alone, and a later
delivery is decoded from that state unchanged. -/
theorem c4_parse_failure_confined_to_delivery_witness :
    processLines parseChunkLine ([lineHel] ++ "not json".toList :: [lineLo])
        initStream =
      processLines parseChunkLine [lineHel] initStream ∧
    processDeliveries parseChunkLine [lineLo]
        (processLines parseChunkLine
          ([lineHel] ++ "not json".toList :: [lineLo]) initStream) =
      processDeliveries parseChunkLine [lineLo]
        (processLines parseChunkLine [lineHel] initStream) :=
  c4_parse_failure_confined_to_delivery parseChunkLine [lineHel]
    [{ response := "Hel".toList, done := false }] "not json".toList [lineLo]
    initStream [lineLo]
    (List.Forall₂.cons (by decide) List.Forall₂.nil) (by decide)

/-- C5: when the version probe fails, checkStatus reports not running and
model unavailable, for every model argument, and returns rather than
throwing (the embedding is a total function). -/
theorem c5_probe_failure_reports_down (net : Network) (model : JsText)
    (e : NetError) (h : net.version = .error e) :
    checkStatus net model = { running := false, modelAvailable := false } := by
  simp [checkStatus, h]

/-- Witness for C5: with every endpoint unreachable, checkStatus of llama2
reports not running and model unavailable. -/
theorem c5_probe_failure_reports_down_witness :
    checkStatus netDown "llama2".toList =
      { running := false, modelAvailable := false } :=
  c5_probe_failure_reports_down netDown "llama2".toList errRefused rfl

/-- C6: when the version probe succeeds, checkStatus reports running and sets
modelAvailable to whether the model is a member of the names returned by the
listing; concretely, with llama2 and mistral listed, checkStatus of llama2
reports running and available. -/
theorem c6_probe_success_reports_membership :
    (∀ (net : Network) (model : JsText) (u : Unit), net.version = .ok u →
      checkStatus net model =
        { running := true,
          modelAvailable := (getModels net).any (fun m => m.name == model) }) ∧
    checkStatus netUp "llama2".toList =
      { running := true, modelAvailable := true } := by
  refine ⟨?_, by decide⟩
  intro net model u h
  simp [checkStatus, h]

/-- C7: when the tags request fails, getModels returns the empty list; it is
a total function, so the failure never propagates to the caller. -/
theorem c7_listing_failure_yields_empty (net : Network) (e : NetError)
    (h : net.tags = .error e) : getModels net = [] := by
  simp [getModels, h]

/-- Witness for C7: with the tags endpoint failing, getModels is empty. -/
theorem c7_listing_failure_yields_empty_witness : getModels netNoTags = [] :=
  c7_listing_failure_yields_empty netNoTags errGeneric rfl

/-- C8 as stated is false at a concrete input: when the streaming POST opens
and the stream then emits an error event, the promise returned by sendMessage
is rejected with that error rather than resolved with any string, because the
promise returned inside the try block is adopted after the block has been
exited, out of reach of the catch. -/
theorem c8_stream_error_rejects_counterexample :
    (sendMessage netStreamError [] "llama2".toList true).result =
      some (SendResult.rejected errGeneric) := by
  decide

/-- C8 amended: exceptions thrown while awaiting the generate POST, in either
mode, are caught and converted to a returned string; that string is the
connection-refused text exactly for an axios error with code ECONNREFUSED and
otherwise the generic text embedding the underlying message; but once the
streaming POST has succeeded, the promise settles as the stream handlers
settle it, so a stream error event surfaces as a rejection, not a string. -/
theorem c8_post_exceptions_become_strings (net : Network)
    (message model : JsText) (e : NetError)
    (hm : (getModels net).any (fun m => m.name == model) = true) :
    (net.generateStream = .error e →
      (sendMessage net message model true).result =
        some (SendResult.resolved (catchMsg e model))) ∧
    (net.generateBuffered = .error e →
      (sendMessage net message model false).result =
        some (SendResult.resolved (catchMsg e model))) ∧
    (e.isAxios = true → e.code = some "ECONNREFUSED".toList →
      catchMsg e model = connectionRefusedMsg) ∧
    (¬(e.isAxios = true ∧ e.code = some "ECONNREFUSED".toList) →
      ∃ a b, catchMsg e model = a ++ e.message ++ b) ∧
    (∀ events, net.generateStream = .ok events →
      (sendMessage net message model true).result =
        (runStream parseChunkLine events).settled) := by
  refine ⟨?_, ?_, ?_, ?_, ?_⟩
  · intro h; simp [sendMessage, hm, h]
  · intro h; simp [sendMessage, hm, h]
  · intro h1 h2; simp [catchMsg, h1, h2]
  · intro h
    have hb : (e.isAxios && (e.code == some "ECONNREFUSED".toList)) = false := by
      cases hA : e.isAxios with
      | false => simp
      | true =>
        have hc : ¬ e.code = some "ECONNREFUSED".toList :=
          fun hcc => h ⟨hA, hcc⟩
        simp
        exact hc
    have hmsg : catchMsg e model = genericErrorMsg e model := by
      unfold catchMsg
      rw [hb]
      simp
    refine ⟨"Error communicating with Ollama: ".toList,
      ". Make sure you have pulled the model with \"ollama pull ".toList ++
        model ++ "\".".toList, ?_⟩
    rw [hmsg]
    simp [genericErrorMsg, List.append_assoc]
  · intro events h; simp [sendMessage, hm, h]

/-- Witness for the amended C8: with both generate POSTs refusing the
connection and llama2 listed, each instantiated conjunct holds. -/
theorem c8_post_exceptions_become_strings_witness :
    (netPostFails.generateStream = .error errRefused →
      (sendMessage netPostFails [] "llama2".toList true).result =
        some (SendResult.resolved (catchMsg errRefused "llama2".toList))) ∧
    (netPostFails.generateBuffered = .error errRefused →
      (sendMessage netPostFails [] "llama2".toList false).result =
        some (SendResult.resolved (catchMsg errRefused "llama2".toList))) ∧
    (errRefused.isAxios = true →
      errRefused.code = some "ECONNREFUSED".toList →
      catchMsg errRefused "llama2".toList = connectionRefusedMsg) ∧
    (¬(errRefused.isAxios = true ∧
        errRefused.code = some "ECONNREFUSED".toList) →
      ∃ a b, catchMsg errRefused "llama2".toList =
        a ++ errRefused.message ++ b) ∧
    (∀ events, netPostFails.generateStream = .ok events →
      (sendMessage netPostFails [] "llama2".toList true).result =
        (runStream parseChunkLine events).settled) :=
  c8_post_exceptions_become_strings netPostFails [] "llama2".toList errRefused
    (by decide)

/-- C9: when the version probe succeeds but the tags request fails, the
failure is swallowed inside getModels as an empty model set, so checkStatus
reports running with the model unavailable, for every model argument. -/
theorem c9_listing_failure_still_running (net : Network) (model : JsText)
    (u : Unit) (e : NetError)
    (h1 : net.version = .ok u) (h2 : net.tags = .error e) :
    checkStatus net model = { running := true, modelAvailable := false } := by
  simp [checkStatus, h1, getModels, h2]

/-- Witness for C9: version probe up, tags failing, llama2 is reported
running but unavailable. -/
theorem c9_listing_failure_still_running_witness :
    checkStatus netNoTags "llama2".toList =
      { running := true, modelAvailable := false } :=
  c9_listing_failure_still_running netNoTags "llama2".toList () errGeneric
    rfl rfl

/-- C10: a parseable record delivered after the promise has settled is still
emitted via onToken and appended to the accumulator, while the settled value
is unchanged. -/
theorem c10_emission_continues_after_settlement
    (parse : JsText → Option OllamaResponse)
    (s : StreamState) (v : SendResult) (l : JsText) (r : OllamaResponse)
    (h1 : s.settled = some v) (h2 : chunkLines l = [l])
    (h3 : parse l = some r) :
    processDelivery parse s l =
      { fullResponse := s.fullResponse ++ r.response,
        emitted := s.emitted ++ [r.response],
        settled := some v } := by
  have hstep : processDelivery parse s l = processLines parse [l] s := by
    simp [processDelivery, h2]
  rw [hstep]
  cases hd : r.done <;> simp [processLines, h3, hd, h1, firstSettle]

/-- Witness for C10: after the promise resolved with Hel, the arriving lo
record with the done flag set is still emitted and accumulated while the
resolution stays Hel. -/
theorem c10_emission_continues_after_settlement_witness :
    processDelivery parseChunkLine afterDoneState lineLo =
      { fullResponse := "Hel".toList ++ "lo".toList,
        emitted := ["Hel".toList] ++ ["lo".toList],
        settled := some (SendResult.resolved "Hel".toList) } :=
  c10_emission_continues_after_settlement parseChunkLine afterDoneState
    (SendResult.resolved "Hel".toList) lineLo
    { response := "lo".toList, done := true } rfl (by decide) (by decide)
